import Mathlib

/-!
Verification development for the on-demand video transcoding and streaming
pipeline of the stash repository (`pkg/ffmpeg/stream_transcode.go`).

The definitions below are a shallow embedding of the Go source. Argument
lists are `List String`; the typed argument builders (the Argument
Vocabulary), codec/MIME constants and the external collaborator functions
(`ProbeAudioCodec`, `hwMaxResFilter`, `hwDeviceInit`, the resolution enum)
live outside the provided source tree and are modelled from the spec where
so marked. Everything else is translated directly from
`stream_transcode.go`.
-/

namespace Stash

/-- Modelled from the spec: `VideoCodec` is an enumeration backed by a
string name (the Go `type VideoCodec string`); the codec catalog with its
software codecs, per-vendor hardware variants, and the pass-through copy
codec is missing from src. -/
structure VideoCodec where
  name : String
deriving DecidableEq, Repr

/-- Modelled from the spec: H.264 software encoder. -/
def VideoCodecLibX264 : VideoCodec := ⟨"libx264"⟩

/-- Modelled from the spec: VP9 software encoder. -/
def VideoCodecVP9 : VideoCodec := ⟨"libvpx-vp9"⟩

/-- Modelled from the spec: NVIDIA hardware H.264 encoder. -/
def VideoCodecN264 : VideoCodec := ⟨"h264_nvenc"⟩

/-- Modelled from the spec: Intel hardware H.264 encoder. -/
def VideoCodecI264 : VideoCodec := ⟨"h264_qsv"⟩

/-- Modelled from the spec: VAAPI hardware H.264 encoder. -/
def VideoCodecV264 : VideoCodec := ⟨"h264_vaapi"⟩

/-- Modelled from the spec: AMD hardware H.264 encoder. -/
def VideoCodecA264 : VideoCodec := ⟨"h264_amf"⟩

/-- Modelled from the spec: macOS hardware H.264 encoder. -/
def VideoCodecM264 : VideoCodec := ⟨"h264_videotoolbox"⟩

/-- Modelled from the spec: OpenMAX hardware H.264 encoder. -/
def VideoCodecO264 : VideoCodec := ⟨"h264_v4l2m2m"⟩

/-- Modelled from the spec: Intel hardware VP9 encoder. -/
def VideoCodecIVP9 : VideoCodec := ⟨"vp9_qsv"⟩

/-- Modelled from the spec: VAAPI hardware VP9 encoder. -/
def VideoCodecVVP9 : VideoCodec := ⟨"vp9_vaapi"⟩

/-- Modelled from the spec: pass-through stream-copy codec. -/
def VideoCodecCopy : VideoCodec := ⟨"copy"⟩

/-- The codecs of the catalog: every codec `CodecInit` recognises plus the
stream-copy codec. -/
def catalogCodecs : List VideoCodec :=
  [VideoCodecLibX264, VideoCodecVP9, VideoCodecN264, VideoCodecI264,
   VideoCodecV264, VideoCodecA264, VideoCodecM264, VideoCodecO264,
   VideoCodecIVP9, VideoCodecVVP9, VideoCodecCopy]

/-- Modelled from the spec: the hardware codec variants of the catalog
(used to decide whether hardware device initialization is required). -/
def VideoCodec.isHardware (c : VideoCodec) : Bool :=
  c = VideoCodecN264 || c = VideoCodecI264 || c = VideoCodecV264 ||
  c = VideoCodecA264 || c = VideoCodecM264 || c = VideoCodecO264 ||
  c = VideoCodecIVP9 || c = VideoCodecVVP9

/-- Modelled from the spec: a `VideoFilter` is an optional scaling
transform string; the empty string means no transform. -/
abbrev VideoFilter := String

/-- An ffmpeg-style argument list (the Go `type Args []string`). -/
abbrev Args := List String

/-- Modelled from the spec (Argument Vocabulary): select the video codec. -/
def Args.VideoCodec (a : Args) (c : Stash.VideoCodec) : Args :=
  a ++ ["-c:v", c.name]

/-- Modelled from the spec (Argument Vocabulary): apply a video filter,
only when it is non-empty. -/
def Args.VideoFilter (a : Args) (vf : VideoFilter) : Args :=
  if vf = "" then a else a ++ ["-vf", vf]

/-- Modelled from the spec (Argument Vocabulary): omit the audio track. -/
def Args.SkipAudio (a : Args) : Args :=
  a ++ ["-an"]

/-- Modelled from the spec (Argument Vocabulary): select the audio codec. -/
def Args.AudioCodec (a : Args) (c : String) : Args :=
  a ++ ["-c:a", c]

/-- Modelled from the spec (Argument Vocabulary): select the container
format for the muxer. -/
def Args.Format (a : Args) (f : String) : Args :=
  a ++ ["-f", f]

/-- Modelled from the spec (Argument Vocabulary): set the log level. -/
def Args.LogLevel (a : Args) (l : String) : Args :=
  a ++ ["-loglevel", l]

/-- Modelled from the spec (Argument Vocabulary): seek to a start offset.
The Go field is a float64 number of seconds; the offset is rendered into
one argument string, which no claim inspects, so seconds are carried as a
natural number here. -/
def Args.Seek (a : Args) (seconds : Nat) : Args :=
  a ++ ["-ss", toString seconds]

/-- Modelled from the spec (Argument Vocabulary): name the input file. -/
def Args.Input (a : Args) (path : String) : Args :=
  a ++ ["-i", path]

/-- Modelled from the spec (Argument Vocabulary): name the output sink. -/
def Args.Output (a : Args) (path : String) : Args :=
  a ++ [path]

/-- Modelled from the spec: the Opus audio encoder name used for Matroska
output. -/
def AudioCodecLibOpus : String := "libopus"

/-- Modelled from the spec: MIME type of fragmented-MP4 output. -/
def MimeMp4Video : String := "video/mp4"

/-- Modelled from the spec: MIME type of WebM output. -/
def MimeWebmVideo : String := "video/webm"

/-- Modelled from the spec: MIME type of Matroska output. -/
def MimeMkvVideo : String := "video/x-matroska"

/-- Modelled from the spec: muxer name for MP4. -/
def FormatMP4 : String := "mp4"

/-- Modelled from the spec: muxer name for WebM. -/
def FormatWebm : String := "webm"

/-- Modelled from the spec: muxer name for Matroska. -/
def FormatMatroska : String := "matroska"

/-- CodecInit, translated from `stream_transcode.go`: the
quality/performance tuning flags for each codec of the catalog, prefixed
by the codec selection flag. -/
def CodecInit (codec : VideoCodec) : Args :=
  let args : Args := Args.VideoCodec [] codec
  if codec = VideoCodecLibX264 then
    args ++ ["-pix_fmt", "yuv420p", "-preset", "veryfast", "-crf", "25",
             "-sc_threshold", "0"]
  else if codec = VideoCodecVP9 then
    args ++ ["-pix_fmt", "yuv420p", "-deadline", "realtime", "-cpu-used",
             "5", "-row-mt", "1", "-crf", "30", "-b:v", "0"]
  else if codec = VideoCodecN264 then
    args ++ ["-rc", "vbr", "-cq", "15"]
  else if codec = VideoCodecI264 then
    args ++ ["-global_quality", "20", "-preset", "faster"]
  else if codec = VideoCodecV264 then
    args ++ ["-qp", "20"]
  else if codec = VideoCodecA264 then
    args ++ ["-quality", "speed"]
  else if codec = VideoCodecM264 then
    args ++ ["-prio_speed", "1"]
  else if codec = VideoCodecO264 then
    args ++ ["-preset", "superfast", "-crf", "25"]
  else if codec = VideoCodecIVP9 then
    args ++ ["-global_quality", "20", "-preset", "faster"]
  else if codec = VideoCodecVVP9 then
    args ++ ["-qp", "20"]
  else
    args

/-- A stream format: MIME type plus the argument-generation function
(translated from `stream_transcode.go`). -/
structure StreamFormat where
  MimeType : String
  Args : VideoCodec → VideoFilter → Bool → Args

/-- StreamTypeMP4, translated from `stream_transcode.go`. -/
def StreamTypeMP4 : StreamFormat where
  MimeType := MimeMp4Video
  Args := fun codec videoFilter videoOnly =>
    let args := CodecInit codec
    let args := args ++ ["-movflags", "frag_keyframe+empty_moov"]
    let args := args.VideoFilter videoFilter
    let args := if videoOnly then args.SkipAudio else args ++ ["-ac", "2"]
    args.Format FormatMP4

/-- StreamTypeWEBM, translated from `stream_transcode.go`. -/
def StreamTypeWEBM : StreamFormat where
  MimeType := MimeWebmVideo
  Args := fun codec videoFilter videoOnly =>
    let args := CodecInit codec
    let args := args.VideoFilter videoFilter
    let args := if videoOnly then args.SkipAudio else args ++ ["-ac", "2"]
    args.Format FormatWebm

/-- StreamTypeMKV, translated from `stream_transcode.go`. Note that the
source never applies the video filter for Matroska output. -/
def StreamTypeMKV : StreamFormat where
  MimeType := MimeMkvVideo
  Args := fun codec _videoFilter videoOnly =>
    let args := CodecInit codec
    let args :=
      if videoOnly then args.SkipAudio
      else (args.AudioCodec AudioCodecLibOpus) ++
        ["-b:a", "96k", "-vbr", "on", "-ac", "2"]
    args.Format FormatMatroska

/-- Modelled from the spec: the Video File Descriptor consumed by the
pipeline, exposing path, dimensions and audio-codec metadata (the
`models.VideoFile` fields read by `stream_transcode.go`). -/
structure VideoFile where
  Path : String
  Width : Nat
  Height : Nat
  AudioCodec : String
deriving DecidableEq, Repr

/-- TranscodeOptions, translated from `stream_transcode.go` (the start
offset is carried as a natural number of seconds, see `Args.Seek`). -/
structure TranscodeOptions where
  StreamType : StreamFormat
  VideoFile : VideoFile
  Resolution : String
  StartTime : Nat

/-- Modelled from the spec: the audio-codec status the Hardware probe
reports for a source file; `missingUnsupported` means the source lacks a
usable audio stream. -/
inductive AudioCodecStatus where
  | supported
  | missingUnsupported
deriving DecidableEq, Repr

/-- Modelled from the spec: probe the source file's audio-codec metadata;
a recognised audio codec name probes as supported, anything else as
missing/unsupported. -/
def ProbeAudioCodec (c : String) : AudioCodecStatus :=
  if c = "aac" ∨ c = "mp3" ∨ c = "opus" ∨ c = "vorbis" ∨ c = "flac" then
    .supported
  else
    .missingUnsupported

/-- Alias keeping the source's name for the missing/unsupported status. -/
def MissingUnsupported : AudioCodecStatus := .missingUnsupported

/-- Modelled from the spec: the Stream Manager's view of its external
collaborators — the Configuration provider (hardware-acceleration toggle,
maximum streaming resolution, extra encoder arguments) and the Hardware
Capability Prober (compatible hardware codec per container, if any). -/
structure StreamManager where
  hwCodecMP4 : Option VideoCodec
  hwCodecWEBM : Option VideoCodec
  transcodeHardwareAcceleration : Bool
  maxStreamingTranscodeSize : Nat
  liveTranscodeInputArgs : List String
  liveTranscodeOutputArgs : List String

/-- FileGetCodec, translated from `stream_transcode.go`: pick the codec
for a container MIME type; the unmatched default is the Go zero value of
the codec string type. -/
def FileGetCodec (sm : StreamManager) (mimetype : String) : VideoCodec :=
  if mimetype = MimeMp4Video then
    match sm.hwCodecMP4 with
    | some hwcodec =>
        if sm.transcodeHardwareAcceleration then hwcodec else VideoCodecLibX264
    | none => VideoCodecLibX264
  else if mimetype = MimeWebmVideo then
    match sm.hwCodecWEBM with
    | some hwcodec =>
        if sm.transcodeHardwareAcceleration then hwcodec else VideoCodecVP9
    | none => VideoCodecVP9
  else if mimetype = MimeMkvVideo then
    VideoCodecCopy
  else
    ⟨""⟩

/-- Modelled from the spec: map a requested streaming-resolution label to
the maximum output dimension in pixels; the original-resolution label (and
any unknown label) maps to no cap. -/
def GetMaxResolution (label : String) : Nat :=
  if label = "LOW" then 240
  else if label = "STANDARD" then 480
  else if label = "STANDARD_HD" then 720
  else if label = "FULL_HD" then 1080
  else if label = "FOUR_K" then 2160
  else 0

/-- Modelled from the spec: hardware device initialization arguments,
required exactly for hardware codecs; software codecs pass through. -/
def hwDeviceInit (args : Args) (codec : VideoCodec) : Args :=
  if codec.isHardware then args ++ ["-init_hw_device", codec.name] else args

/-- Modelled from the spec: compute the scaling filter capping the output
resolution — empty when the source already fits within the cap (or there
is no cap), otherwise a scale transform preserving aspect ratio down to
even dimensions, in hardware-specific syntax for hardware codecs. -/
def hwMaxResFilter (codec : VideoCodec) (width height max : Nat) : VideoFilter :=
  if max = 0 ∨ (width ≤ max ∧ height ≤ max) then ""
  else
    (if codec.isHardware then "scale_hw=" else "scale=") ++
      (if width > height then toString max ++ ":-2"
       else "-2:" ++ toString max)

/-- makeStreamArgs, translated from `stream_transcode.go`: assemble the
full ffmpeg argument list for a transcode request. -/
def makeStreamArgs (o : TranscodeOptions) (sm : StreamManager) : Args :=
  let maxTranscodeSize :=
    if o.Resolution ≠ "" then GetMaxResolution o.Resolution
    else sm.maxStreamingTranscodeSize
  let extraInputArgs := sm.liveTranscodeInputArgs
  let extraOutputArgs := sm.liveTranscodeOutputArgs
  let args : Args := ["-hide_banner"]
  let args := args.LogLevel "error"
  let codec := FileGetCodec sm o.StreamType.MimeType
  let args := hwDeviceInit args codec
  let args := args ++ extraInputArgs
  let args := if o.StartTime ≠ 0 then args.Seek o.StartTime else args
  let args := args.Input o.VideoFile.Path
  let videoOnly := ProbeAudioCodec o.VideoFile.AudioCodec == MissingUnsupported
  let videoFilter :=
    hwMaxResFilter codec o.VideoFile.Width o.VideoFile.Height maxTranscodeSize
  let args := args ++ o.StreamType.Args codec videoFilter videoOnly
  let args := args ++ extraOutputArgs
  args.Output "pipe:"

/-- An observable action on the HTTP response writer. -/
inductive HttpEvent where
  | setHeader (name value : String)
  | writeHeader (status : Nat)
  | write (chunk : String)
  | flush
deriving DecidableEq, Repr

/-- Whether an event writes body bytes to the client. -/
def HttpEvent.isWrite : HttpEvent → Bool
  | .write _ => true
  | _ => false

/-- The outcome of the byte-copy loop from the process's stdout to the
response: success, a broken pipe on write (client disconnected), or any
other transport error. -/
inductive CopyErr where
  | epipe
  | other (msg : String)
deriving DecidableEq, Repr

/-- The streaming handler returned by `getTranscodeStream`, translated
from `stream_transcode.go`: it closes over the selected MIME type and the
process's stdout (here: the chunks the copy loop delivers before it ends).
Given the copy loop's outcome it produces the response-writer events and
the log lines. The source sets both headers, writes status 200, copies
stdout to the response, logs any copy error that is not a broken pipe,
and issues one flush after the copy returns. -/
def transcodeHandler (mimeType : String) (copied : List String)
    (copyErr : Option CopyErr) : List HttpEvent × List String :=
  ([HttpEvent.setHeader "Cache-Control" "no-store",
    HttpEvent.setHeader "Content-Type" mimeType,
    HttpEvent.writeHeader 200] ++
     copied.map HttpEvent.write ++ [HttpEvent.flush],
   match copyErr with
   | none => []
   | some .epipe => []
   | some (.other m) =>
       ["[transcode] error serving transcoded video file: " ++ m])

/-- The environment of one process launch: whether each setup step of
`getTranscodeStream` fails (stdout pipe, stderr pipe, start), and the
stdout bytes the copy loop will deliver on success. -/
structure ProcSetup where
  stdoutErr : Option String
  stderrErr : Option String
  startErr : Option String
  stdoutChunks : List String

/-- The result of `getTranscodeStream`: either the error of the failing
setup step or the streaming handler, plus the log lines emitted and the
number of times the command was attached to the lock context. -/
structure TranscodeStreamResult where
  result : Except String (List String → Option CopyErr → List HttpEvent × List String)
  logs : List String
  attachCount : Nat

/-- getTranscodeStream, translated from `stream_transcode.go`: set up the
stdout pipe, the stderr pipe, then start the process; on any failure
return the error (never attaching the command); on success attach the
command to the lock context once and return the streaming handler. -/
def getTranscodeStream (options : TranscodeOptions) (p : ProcSetup) :
    TranscodeStreamResult :=
  match p.stdoutErr with
  | some e =>
      { result := .error e,
        logs := ["[transcode] ffmpeg stdout not available: " ++ e],
        attachCount := 0 }
  | none =>
    match p.stderrErr with
    | some e =>
        { result := .error e,
          logs := ["[transcode] ffmpeg stderr not available: " ++ e],
          attachCount := 0 }
    | none =>
      match p.startErr with
      | some e => { result := .error e, logs := [], attachCount := 0 }
      | none =>
          { result := .ok (transcodeHandler options.StreamType.MimeType),
            logs := [],
            attachCount := 1 }

/-- The outcome of one `ServeTranscode` request: the response-writer
events, the log lines, and how many times a command was attached to the
request's lock context. -/
structure ServeResult where
  events : List HttpEvent
  logs : List String
  attachCount : Nat

/-- ServeTranscode, translated from `stream_transcode.go`: acquire the
read lock, try to obtain the transcode stream; on failure log the error
and respond 400 Bad Request with the error text as the body; on success
invoke the streaming handler. -/
def ServeTranscode (options : TranscodeOptions) (p : ProcSetup)
    (copyErr : Option CopyErr) : ServeResult :=
  let r := getTranscodeStream options p
  match r.result with
  | .error e =>
      { events := [HttpEvent.writeHeader 400, HttpEvent.write e],
        logs := r.logs ++ ["[transcode] error transcoding video file: " ++ e],
        attachCount := r.attachCount }
  | .ok handler =>
      let (events, hlogs) := handler p.stdoutChunks copyErr
      { events := events, logs := r.logs ++ hlogs,
        attachCount := r.attachCount }

/-- The exit outcome `cmd.Wait` reports for the external process: clean
exit, an exit-status error (the process exited non-zero, which is also
what a deliberate kill produces), or any other error. -/
inductive WaitResult where
  | success
  | exitError (code : Nat)
  | otherError (msg : String)
deriving DecidableEq, Repr

/-- The Go error value the stderr drain task ends up holding: an error
built from the collected stderr text, an exit-status error from `Wait`
(what `errors.As` recognises as an `exec.ExitError`), or any other error. -/
inductive GoErr where
  | fromStderr (text : String)
  | exitStatus (code : Nat)
  | otherErr (msg : String)
deriving DecidableEq, Repr

/-- The stderr drain task, translated from `stream_transcode.go`: read
all of stderr, wait for the process; prefer the stderr text as the error,
otherwise the wait outcome; log it unless it is an exit-status error —
those are expected, because the process is always deliberately killed when
the client disconnects. Returns the log lines (the task surfaces nothing
to the caller). -/
def drainStderr (stderrText : String) (wait : WaitResult)
    (cmdline : String) : List String :=
  let err : Option GoErr :=
    if stderrText ≠ "" then some (.fromStderr stderrText)
    else
      match wait with
      | .success => none
      | .exitError code => some (.exitStatus code)
      | .otherError m => some (.otherErr m)
  match err with
  | none => []
  | some (.exitStatus _) => []
  | some (.fromStderr t) =>
      ["[transcode] ffmpeg error when running command <" ++ cmdline ++ ">: " ++ t]
  | some (.otherErr m) =>
      ["[transcode] ffmpeg error when running command <" ++ cmdline ++ ">: " ++ m]

/-- The flag strings the three argument-generation functions may emit; a
video filter string is none of these (real filters are transform
expressions such as scale=1280:-2). -/
def flagTokens : List String :=
  ["-c:v", "-vf", "-an", "-ac", "-c:a", "-b:a", "-vbr", "-f", "-movflags"]

/-- A concrete 4K source file used by the witnesses. -/
def sampleFile : VideoFile := ⟨"/video.mp4", 3840, 2160, "aac"⟩

/-- A concrete MP4 transcode request used by the witnesses. -/
def sampleOptionsMP4 : TranscodeOptions := ⟨StreamTypeMP4, sampleFile, "", 0⟩

/-- A concrete stream-manager configuration used by the witnesses: no
hardware codecs probed, hardware acceleration off, 1080 cap, no extra
arguments. -/
def sampleManager : StreamManager := ⟨none, none, false, 1080, [], []⟩

/-- A concrete MP4 transcode request carrying a per-request resolution
override, used by the witnesses. -/
def sampleOptionsOverride : TranscodeOptions :=
  ⟨StreamTypeMP4, sampleFile, "LOW", 0⟩

/-- C1: for every supported container MIME type, codec selection returns
the container's default software codec (H.264 software for MP4, VP9 for
WebM, stream-copy for Matroska), and returns the probed hardware codec
instead exactly when hardware acceleration is enabled and the hardware
probe reports a compatible hardware codec for that container; for
Matroska the result is always stream-copy. -/
theorem fileGetCodec_policy (sm : StreamManager) :
    FileGetCodec sm MimeMp4Video =
      (if sm.transcodeHardwareAcceleration then
        sm.hwCodecMP4.getD VideoCodecLibX264
       else VideoCodecLibX264) ∧
    FileGetCodec sm MimeWebmVideo =
      (if sm.transcodeHardwareAcceleration then
        sm.hwCodecWEBM.getD VideoCodecVP9
       else VideoCodecVP9) ∧
    FileGetCodec sm MimeMkvVideo = VideoCodecCopy := by
  obtain ⟨mp4, webm, accel, size, ein, eout⟩ := sm
  refine ⟨?_, ?_, ?_⟩ <;>
    cases mp4 <;> cases webm <;> cases accel <;>
      simp [FileGetCodec, MimeMp4Video, MimeWebmVideo, MimeMkvVideo]

/-- C5: when the external process exits with a non-zero status only
because it was deliberately terminated (an exit-status error with no
stderr output), the stderr drain task surfaces nothing to the caller and
logs nothing. -/
theorem drainStderr_suppresses_expected_termination (code : Nat)
    (cmdline : String) (_hnz : code ≠ 0) :
    drainStderr "" (WaitResult.exitError code) cmdline = [] := by
  simp [drainStderr]

/-- Witness for the expected-termination suppression theorem at a
concrete exit code. -/
theorem drainStderr_suppresses_expected_termination_witness :
    (137 : Nat) ≠ 0 ∧ drainStderr "" (WaitResult.exitError 137) "ffmpeg" = [] :=
  ⟨by decide, drainStderr_suppresses_expected_termination 137 "ffmpeg" (by decide)⟩

/-- C6: a broken-pipe error of the copy loop is swallowed silently —
no log line and the same response events as an error-free copy — while any
other mid-stream copy error produces exactly one log line and still leaves
the response events unchanged (never surfaced to the client). -/
theorem transcodeHandler_copy_error_policy (mimeType : String)
    (copied : List String) :
    ((transcodeHandler mimeType copied (some CopyErr.epipe)).2 = [] ∧
      (transcodeHandler mimeType copied (some CopyErr.epipe)).1 =
        (transcodeHandler mimeType copied none).1) ∧
    (∀ m : String,
      (transcodeHandler mimeType copied (some (CopyErr.other m))).2 =
        ["[transcode] error serving transcoded video file: " ++ m] ∧
      (transcodeHandler mimeType copied (some (CopyErr.other m))).1 =
        (transcodeHandler mimeType copied none).1) := by
  simp [transcodeHandler]

/-- C7 counterexample: copying two chunks produces two write events but a
single flush event, which moreover follows both writes — the handler does
not flush per write call. -/
theorem transcodeHandler_flush_counterexample :
    (transcodeHandler "video/mp4" ["a", "b"] none).1 =
      [HttpEvent.setHeader "Cache-Control" "no-store",
       HttpEvent.setHeader "Content-Type" "video/mp4",
       HttpEvent.writeHeader 200, HttpEvent.write "a", HttpEvent.write "b",
       HttpEvent.flush] ∧
    (transcodeHandler "video/mp4" ["a", "b"] none).1.count HttpEvent.flush = 1 ∧
    (transcodeHandler "video/mp4" ["a", "b"] none).1.countP
      HttpEvent.isWrite = 2 := by
  decide

/-- C7 amended: during streaming the bytes from the process's stdout are
written into the response body exactly as they arrive and in order, and a
single flush is issued after the copy loop completes (as the final
response event), rather than one flush per write call. -/
theorem transcodeHandler_stream_order (mimeType : String)
    (copied : List String) (copyErr : Option CopyErr) :
    (transcodeHandler mimeType copied copyErr).1.filter HttpEvent.isWrite =
      copied.map HttpEvent.write ∧
    (transcodeHandler mimeType copied copyErr).1.count HttpEvent.flush = 1 ∧
    (transcodeHandler mimeType copied copyErr).1.getLast? =
      some HttpEvent.flush := by
  have hshape : (transcodeHandler mimeType copied copyErr).1 =
      ([HttpEvent.setHeader "Cache-Control" "no-store",
        HttpEvent.setHeader "Content-Type" mimeType,
        HttpEvent.writeHeader 200] ++ copied.map HttpEvent.write) ++
        [HttpEvent.flush] := by
    simp [transcodeHandler]
  refine ⟨?_, ?_, ?_⟩
  · rw [hshape]
    simp [List.filter_map, Function.comp_def, HttpEvent.isWrite]
  · rw [hshape]
    simp [List.count_append, List.count_cons, List.count_eq_zero]
  · rw [hshape, List.getLast?_concat]

/-- C9: the command is attached to the request's lock context at most
once, exactly when all three setup steps (stdout pipe, stderr pipe,
process start) succeed, and the serving path performs no further
attachment beyond the one done by `getTranscodeStream`. -/
theorem attachCommand_at_most_once (options : TranscodeOptions)
    (p : ProcSetup) (copyErr : Option CopyErr) :
    (getTranscodeStream options p).attachCount ≤ 1 ∧
    ((getTranscodeStream options p).attachCount = 1 ↔
      p.stdoutErr = none ∧ p.stderrErr = none ∧ p.startErr = none) ∧
    (ServeTranscode options p copyErr).attachCount =
      (getTranscodeStream options p).attachCount := by
  obtain ⟨a, b, c, chunks⟩ := p
  cases a <;> cases b <;> cases c <;>
    simp [getTranscodeStream, ServeTranscode, transcodeHandler]

/-- C4: when any of the three process-start steps fails (stdout pipe,
stderr pipe, or the start itself), the serving handler responds 400 Bad
Request with the failing step's error text as the body, never writes the
streaming status 200, and the streaming handler is not obtained (the
stream result is the error, so the handler is invoked only after a
successful start). -/
theorem serveTranscode_start_failure_responds_400 (options : TranscodeOptions)
    (p : ProcSetup) (copyErr : Option CopyErr)
    (h : p.stdoutErr ≠ none ∨ p.stderrErr ≠ none ∨ p.startErr ≠ none) :
    ∃ e, (p.stdoutErr = some e ∨ p.stderrErr = some e ∨ p.startErr = some e) ∧
      (getTranscodeStream options p).result = .error e ∧
      (ServeTranscode options p copyErr).events =
        [HttpEvent.writeHeader 400, HttpEvent.write e] ∧
      HttpEvent.writeHeader 200 ∉ (ServeTranscode options p copyErr).events ∧
      HttpEvent.flush ∉ (ServeTranscode options p copyErr).events := by
  obtain ⟨a, b, c, chunks⟩ := p
  cases a <;> cases b <;> cases c <;>
    simp_all [getTranscodeStream, ServeTranscode]

/-- Witness for the start-failure theorem: a failing process start at a
concrete input yields the 400 response carrying the error text. -/
theorem serveTranscode_start_failure_responds_400_witness :
    ((⟨none, none, some "exec format error", []⟩ : ProcSetup).stdoutErr ≠ none ∨
      (⟨none, none, some "exec format error", []⟩ : ProcSetup).stderrErr ≠ none ∨
      (⟨none, none, some "exec format error", []⟩ : ProcSetup).startErr ≠ none) ∧
    (∃ e, ((⟨none, none, some "exec format error", []⟩ : ProcSetup).stdoutErr = some e ∨
        (⟨none, none, some "exec format error", []⟩ : ProcSetup).stderrErr = some e ∨
        (⟨none, none, some "exec format error", []⟩ : ProcSetup).startErr = some e) ∧
      (getTranscodeStream
        ⟨StreamTypeMP4, ⟨"/tmp/v.mp4", 1280, 720, "aac"⟩, "", 0⟩
        ⟨none, none, some "exec format error", []⟩).result = .error e ∧
      (ServeTranscode
        ⟨StreamTypeMP4, ⟨"/tmp/v.mp4", 1280, 720, "aac"⟩, "", 0⟩
        ⟨none, none, some "exec format error", []⟩ none).events =
        [HttpEvent.writeHeader 400, HttpEvent.write e] ∧
      HttpEvent.writeHeader 200 ∉ (ServeTranscode
        ⟨StreamTypeMP4, ⟨"/tmp/v.mp4", 1280, 720, "aac"⟩, "", 0⟩
        ⟨none, none, some "exec format error", []⟩ none).events ∧
      HttpEvent.flush ∉ (ServeTranscode
        ⟨StreamTypeMP4, ⟨"/tmp/v.mp4", 1280, 720, "aac"⟩, "", 0⟩
        ⟨none, none, some "exec format error", []⟩ none).events) :=
  ⟨by simp,
    serveTranscode_start_failure_responds_400
      ⟨StreamTypeMP4, ⟨"/tmp/v.mp4", 1280, 720, "aac"⟩, "", 0⟩
      ⟨none, none, some "exec format error", []⟩ none
      (by simp)⟩

/-- C8: on a successful process start the response consists of the two
headers (Cache-Control no-store and Content-Type equal to the selected
stream format's MIME type), then the 200 status, and only then the body
bytes, followed by the final flush. -/
theorem serveTranscode_success_response (options : TranscodeOptions)
    (p : ProcSetup) (copyErr : Option CopyErr)
    (h1 : p.stdoutErr = none) (h2 : p.stderrErr = none)
    (h3 : p.startErr = none) :
    (ServeTranscode options p copyErr).events =
      [HttpEvent.setHeader "Cache-Control" "no-store",
       HttpEvent.setHeader "Content-Type" options.StreamType.MimeType,
       HttpEvent.writeHeader 200] ++
        p.stdoutChunks.map HttpEvent.write ++ [HttpEvent.flush] := by
  obtain ⟨a, b, c, chunks⟩ := p
  simp only at h1 h2 h3
  subst h1; subst h2; subst h3
  simp [ServeTranscode, getTranscodeStream, transcodeHandler]

/-- Witness for the success-response theorem at a concrete request. -/
theorem serveTranscode_success_response_witness :
    ((⟨none, none, none, ["chunk0"]⟩ : ProcSetup).stdoutErr = none ∧
      (⟨none, none, none, ["chunk0"]⟩ : ProcSetup).stderrErr = none ∧
      (⟨none, none, none, ["chunk0"]⟩ : ProcSetup).startErr = none) ∧
    (ServeTranscode ⟨StreamTypeWEBM, ⟨"/tmp/v.webm", 640, 480, "opus"⟩, "", 0⟩
        ⟨none, none, none, ["chunk0"]⟩ none).events =
      [HttpEvent.setHeader "Cache-Control" "no-store",
       HttpEvent.setHeader "Content-Type"
         (⟨StreamTypeWEBM, ⟨"/tmp/v.webm", 640, 480, "opus"⟩, "", 0⟩ :
           TranscodeOptions).StreamType.MimeType,
       HttpEvent.writeHeader 200] ++
        [HttpEvent.write "chunk0"] ++ [HttpEvent.flush] :=
  ⟨⟨rfl, rfl, rfl⟩,
    serveTranscode_success_response
      ⟨StreamTypeWEBM, ⟨"/tmp/v.webm", 640, 480, "opus"⟩, "", 0⟩
      ⟨none, none, none, ["chunk0"]⟩ none rfl rfl rfl⟩

theorem codecInit_facts (codec : VideoCodec) (hc : codec ∈ catalogCodecs) :
    (CodecInit codec).count "-c:v" = 1 ∧
    "-vf" ∉ CodecInit codec ∧ "-an" ∉ CodecInit codec ∧
    "-ac" ∉ CodecInit codec ∧ "-c:a" ∉ CodecInit codec ∧
    "-b:a" ∉ CodecInit codec := by
  fin_cases hc <;> decide

theorem streamTypeMP4_args_shape (codec : VideoCodec) (f : VideoFilter)
    (videoOnly : Bool) :
    StreamTypeMP4.Args codec f videoOnly =
      CodecInit codec ++ ["-movflags", "frag_keyframe+empty_moov"] ++
        (if f = "" then [] else ["-vf", f]) ++
        (if videoOnly then ["-an"] else ["-ac", "2"]) ++ ["-f", "mp4"] := by
  cases videoOnly <;> by_cases hf : f = "" <;>
    simp [StreamTypeMP4, Args.VideoFilter, Args.SkipAudio, Args.Format,
      FormatMP4, hf]

theorem streamTypeWEBM_args_shape (codec : VideoCodec) (f : VideoFilter)
    (videoOnly : Bool) :
    StreamTypeWEBM.Args codec f videoOnly =
      CodecInit codec ++ (if f = "" then [] else ["-vf", f]) ++
        (if videoOnly then ["-an"] else ["-ac", "2"]) ++ ["-f", "webm"] := by
  cases videoOnly <;> by_cases hf : f = "" <;>
    simp [StreamTypeWEBM, Args.VideoFilter, Args.SkipAudio, Args.Format,
      FormatWebm, hf]

theorem streamTypeMKV_args_shape (codec : VideoCodec) (f : VideoFilter)
    (videoOnly : Bool) :
    StreamTypeMKV.Args codec f videoOnly =
      CodecInit codec ++
        (if videoOnly then ["-an"]
         else ["-c:a", "libopus", "-b:a", "96k", "-vbr", "on", "-ac", "2"]) ++
        ["-f", "matroska"] := by
  cases videoOnly <;>
    simp [StreamTypeMKV, Args.AudioCodec, Args.SkipAudio, Args.Format,
      FormatMatroska, AudioCodecLibOpus]

/-- C2 counterexample: the Matroska argument-generation function never
applies the video filter — at a non-empty filter the produced argument
list carries no filter application, refuting the claim that every format
applies the filter if and only if it is non-empty. -/
theorem streamTypeMKV_ignores_filter_counterexample :
    ¬ (("-vf" ∈ StreamTypeMKV.Args VideoCodecCopy "scale=1280:-2" false) ↔
      ("scale=1280:-2" : VideoFilter) ≠ "") := by
  decide

/-- C2 amended: for every catalog codec, every video filter that is not a
flag token, and both audio modes, the MP4 and WebM argument lists contain
exactly one codec-initialization fragment and apply the video filter if
and only if it is non-empty; the Matroska argument list contains exactly
one codec-initialization fragment and never applies a video filter. -/
theorem buildArgs_codec_init_and_filter (codec : VideoCodec)
    (f : VideoFilter) (videoOnly : Bool)
    (hc : codec ∈ catalogCodecs) (hf : f ∉ flagTokens) :
    ((StreamTypeMP4.Args codec f videoOnly).count "-c:v" = 1 ∧
      ("-vf" ∈ StreamTypeMP4.Args codec f videoOnly ↔ f ≠ "")) ∧
    ((StreamTypeWEBM.Args codec f videoOnly).count "-c:v" = 1 ∧
      ("-vf" ∈ StreamTypeWEBM.Args codec f videoOnly ↔ f ≠ "")) ∧
    ((StreamTypeMKV.Args codec f videoOnly).count "-c:v" = 1 ∧
      "-vf" ∉ StreamTypeMKV.Args codec f videoOnly) := by
  obtain ⟨hcount, hvf, han, hac, hca, hba⟩ := codecInit_facts codec hc
  have hfcv : ("-c:v" : String) ≠ f := by
    rintro rfl; exact hf (by decide)
  rw [streamTypeMP4_args_shape, streamTypeWEBM_args_shape,
    streamTypeMKV_args_shape]
  by_cases hfe : f = "" <;> cases videoOnly <;>
    simp_all [List.count_append, List.count_cons, List.mem_append,
      beq_iff_eq]

/-- Witness for the amended codec-initialization and filter theorem at a
concrete codec and filter. -/
theorem buildArgs_codec_init_and_filter_witness :
    (VideoCodecLibX264 ∈ catalogCodecs ∧
      ("scale=1280:-2" : VideoFilter) ∉ flagTokens) ∧
    (((StreamTypeMP4.Args VideoCodecLibX264 "scale=1280:-2" false).count
        "-c:v" = 1 ∧
      ("-vf" ∈ StreamTypeMP4.Args VideoCodecLibX264 "scale=1280:-2" false ↔
        ("scale=1280:-2" : VideoFilter) ≠ "")) ∧
    ((StreamTypeWEBM.Args VideoCodecLibX264 "scale=1280:-2" false).count
        "-c:v" = 1 ∧
      ("-vf" ∈ StreamTypeWEBM.Args VideoCodecLibX264 "scale=1280:-2" false ↔
        ("scale=1280:-2" : VideoFilter) ≠ "")) ∧
    ((StreamTypeMKV.Args VideoCodecLibX264 "scale=1280:-2" false).count
        "-c:v" = 1 ∧
      "-vf" ∉ StreamTypeMKV.Args VideoCodecLibX264 "scale=1280:-2" false)) :=
  ⟨⟨by decide, by decide⟩,
    buildArgs_codec_init_and_filter VideoCodecLibX264 "scale=1280:-2" false
      (by decide) (by decide)⟩

theorem scalePrefix_append_notin (pre s : String)
    (hp : pre = "scale_hw=" ∨ pre = "scale=") : (pre ++ s) ∉ flagTokens := by
  intro hmem
  simp only [flagTokens, List.mem_cons, List.not_mem_nil, or_false] at hmem
  rcases hp with rfl | rfl <;>
    rcases hmem with h | h | h | h | h | h | h | h | h <;>
      · have h2 := congrArg String.data h
        rw [String.data_append] at h2
        simp at h2

theorem hwMaxResFilter_notin_flagTokens (codec : VideoCodec) (w h m : Nat) :
    hwMaxResFilter codec w h m ∉ flagTokens := by
  unfold hwMaxResFilter
  split
  · decide
  · split
    · exact scalePrefix_append_notin _ _ (Or.inl rfl)
    · exact scalePrefix_append_notin _ _ (Or.inr rfl)

theorem catalog_codec_name_ne_an (codec : VideoCodec)
    (hc : codec ∈ catalogCodecs) : codec.name ≠ "-an" := by
  fin_cases hc <;> decide

theorem fileGetCodec_mem_catalog (sm : StreamManager)
    (h4 : ∀ c, sm.hwCodecMP4 = some c → c ∈ catalogCodecs)
    (h9 : ∀ c, sm.hwCodecWEBM = some c → c ∈ catalogCodecs)
    (mt : String)
    (hmt : mt = MimeMp4Video ∨ mt = MimeWebmVideo ∨ mt = MimeMkvVideo) :
    FileGetCodec sm mt ∈ catalogCodecs := by
  obtain ⟨mp4, webm, accel, size, ein, eout⟩ := sm
  simp only at h4 h9
  rcases hmt with rfl | rfl | rfl <;>
    cases mp4 <;> cases webm <;> cases accel <;>
      simp_all [FileGetCodec, MimeMp4Video, MimeWebmVideo, MimeMkvVideo] <;>
      decide

theorem an_mem_buildArgs_iff (codec : VideoCodec) (f : VideoFilter)
    (v : Bool) (fmt : StreamFormat) (hc : codec ∈ catalogCodecs)
    (hf : f ∉ flagTokens)
    (hfmt : fmt = StreamTypeMP4 ∨ fmt = StreamTypeWEBM ∨
      fmt = StreamTypeMKV) :
    "-an" ∈ fmt.Args codec f v ↔ v = true := by
  obtain ⟨hcount, hvf, han, hac, hca, hba⟩ := codecInit_facts codec hc
  have hfan : ("-an" : String) ≠ f := by rintro rfl; exact hf (by decide)
  rcases hfmt with rfl | rfl | rfl
  · rw [streamTypeMP4_args_shape]
    cases v <;> by_cases hfe : f = "" <;> simp_all [List.mem_append]
  · rw [streamTypeWEBM_args_shape]
    cases v <;> by_cases hfe : f = "" <;> simp_all [List.mem_append]
  · rw [streamTypeMKV_args_shape]
    cases v <;> simp_all [List.mem_append]

theorem an_mem_makeStreamArgs_iff (o : TranscodeOptions) (sm : StreamManager)
    (hfmt : o.StreamType = StreamTypeMP4 ∨ o.StreamType = StreamTypeWEBM ∨
      o.StreamType = StreamTypeMKV)
    (hin : "-an" ∉ sm.liveTranscodeInputArgs)
    (hout : "-an" ∉ sm.liveTranscodeOutputArgs)
    (hpath : o.VideoFile.Path ≠ "-an")
    (hss : toString o.StartTime ≠ "-an")
    (h4 : ∀ c, sm.hwCodecMP4 = some c → c ∈ catalogCodecs)
    (h9 : ∀ c, sm.hwCodecWEBM = some c → c ∈ catalogCodecs) :
    "-an" ∈ makeStreamArgs o sm ↔
      ProbeAudioCodec o.VideoFile.AudioCodec = MissingUnsupported := by
  have hmime : o.StreamType.MimeType = MimeMp4Video ∨
      o.StreamType.MimeType = MimeWebmVideo ∨
      o.StreamType.MimeType = MimeMkvVideo := by
    rcases hfmt with h | h | h <;> rw [h] <;>
      simp [StreamTypeMP4, StreamTypeWEBM, StreamTypeMKV]
  have hcodec : FileGetCodec sm o.StreamType.MimeType ∈ catalogCodecs :=
    fileGetCodec_mem_catalog sm h4 h9 _ hmime
  have hname : (FileGetCodec sm o.StreamType.MimeType).name ≠ "-an" :=
    catalog_codec_name_ne_an _ hcodec
  have hfilter : ∀ cap, hwMaxResFilter (FileGetCodec sm o.StreamType.MimeType)
      o.VideoFile.Width o.VideoFile.Height cap ∉ flagTokens := fun cap =>
    hwMaxResFilter_notin_flagTokens _ _ _ cap
  have hanfmt : ∀ cap v, "-an" ∈ o.StreamType.Args
      (FileGetCodec sm o.StreamType.MimeType)
      (hwMaxResFilter (FileGetCodec sm o.StreamType.MimeType)
        o.VideoFile.Width o.VideoFile.Height cap) v ↔ v = true := fun cap v =>
    an_mem_buildArgs_iff _ _ v o.StreamType hcodec (hfilter cap) hfmt
  have hname2 : ("-an" : String) ≠ (FileGetCodec sm o.StreamType.MimeType).name :=
    fun h => hname h.symm
  have hpath2 : ("-an" : String) ≠ o.VideoFile.Path := fun h => hpath h.symm
  have hss2 : ("-an" : String) ≠ toString o.StartTime := fun h => hss h.symm
  simp only [makeStreamArgs]
  cases hbe : ProbeAudioCodec o.VideoFile.AudioCodec == MissingUnsupported
  case false =>
    have hpr : ProbeAudioCodec o.VideoFile.AudioCodec ≠ MissingUnsupported := by
      intro h; rw [h] at hbe; simp at hbe
    by_cases hstt : o.StartTime ≠ 0 <;>
      by_cases hhw : (FileGetCodec sm o.StreamType.MimeType).isHardware <;>
        simp only [hstt, hhw, hwDeviceInit, Args.LogLevel, Args.Seek,
          Args.Input, Args.Output, if_true, if_false, ite_true, ite_false,
          List.append_assoc, List.mem_append, List.cons_append,
          List.nil_append, List.mem_cons, List.not_mem_nil] <;>
        simp_all [List.mem_append]
  case true =>
    have hpr : ProbeAudioCodec o.VideoFile.AudioCodec = MissingUnsupported :=
      beq_iff_eq.mp hbe
    by_cases hstt : o.StartTime ≠ 0 <;>
      by_cases hhw : (FileGetCodec sm o.StreamType.MimeType).isHardware <;>
        simp only [hstt, hhw, hwDeviceInit, Args.LogLevel, Args.Seek,
          Args.Input, Args.Output, if_true, if_false, ite_true, ite_false,
          List.append_assoc, List.mem_append, List.cons_append,
          List.nil_append, List.mem_cons, List.not_mem_nil] <;>
        simp_all [List.mem_append]

/-- C3: for each stream format, when videoOnly is true the generated
argument list omits the audio track entirely (it disables audio and adds
no audio-codec, bitrate or channel arguments); otherwise MP4 and WebM
force 2 audio channels, and Matroska selects Opus at 96k with 2 channels;
and in the full argument assembly videoOnly is true exactly when the
source file's audio codec probes as missing/unsupported. -/
theorem audio_handling_policy (codec : VideoCodec) (f : VideoFilter)
    (o : TranscodeOptions) (sm : StreamManager)
    (hc : codec ∈ catalogCodecs) (hf : f ∉ flagTokens)
    (hfmt : o.StreamType = StreamTypeMP4 ∨ o.StreamType = StreamTypeWEBM ∨
      o.StreamType = StreamTypeMKV)
    (hin : "-an" ∉ sm.liveTranscodeInputArgs)
    (hout : "-an" ∉ sm.liveTranscodeOutputArgs)
    (hpath : o.VideoFile.Path ≠ "-an")
    (hss : toString o.StartTime ≠ "-an")
    (h4 : ∀ c, sm.hwCodecMP4 = some c → c ∈ catalogCodecs)
    (h9 : ∀ c, sm.hwCodecWEBM = some c → c ∈ catalogCodecs) :
    ("-an" ∈ StreamTypeMP4.Args codec f true ∧
      "-ac" ∉ StreamTypeMP4.Args codec f true ∧
      "-c:a" ∉ StreamTypeMP4.Args codec f true ∧
      "-b:a" ∉ StreamTypeMP4.Args codec f true) ∧
    (List.IsInfix ["-ac", "2"] (StreamTypeMP4.Args codec f false) ∧
      "-an" ∉ StreamTypeMP4.Args codec f false ∧
      "-c:a" ∉ StreamTypeMP4.Args codec f false) ∧
    ("-an" ∈ StreamTypeWEBM.Args codec f true ∧
      "-ac" ∉ StreamTypeWEBM.Args codec f true ∧
      "-c:a" ∉ StreamTypeWEBM.Args codec f true ∧
      "-b:a" ∉ StreamTypeWEBM.Args codec f true) ∧
    (List.IsInfix ["-ac", "2"] (StreamTypeWEBM.Args codec f false) ∧
      "-an" ∉ StreamTypeWEBM.Args codec f false ∧
      "-c:a" ∉ StreamTypeWEBM.Args codec f false) ∧
    ("-an" ∈ StreamTypeMKV.Args codec f true ∧
      "-ac" ∉ StreamTypeMKV.Args codec f true ∧
      "-c:a" ∉ StreamTypeMKV.Args codec f true ∧
      "-b:a" ∉ StreamTypeMKV.Args codec f true) ∧
    (List.IsInfix ["-c:a", "libopus", "-b:a", "96k", "-vbr", "on", "-ac", "2"]
        (StreamTypeMKV.Args codec f false) ∧
      "-an" ∉ StreamTypeMKV.Args codec f false) ∧
    ("-an" ∈ makeStreamArgs o sm ↔
      ProbeAudioCodec o.VideoFile.AudioCodec = MissingUnsupported) := by
  obtain ⟨hcount, hvf, han, hac, hca, hba⟩ := codecInit_facts codec hc
  have hfan : ("-an" : String) ≠ f := by rintro rfl; exact hf (by decide)
  have hfac : ("-ac" : String) ≠ f := by rintro rfl; exact hf (by decide)
  have hfca : ("-c:a" : String) ≠ f := by rintro rfl; exact hf (by decide)
  have hfba : ("-b:a" : String) ≠ f := by rintro rfl; exact hf (by decide)
  refine ⟨?_, ⟨?_, ?_, ?_⟩, ?_, ⟨?_, ?_, ?_⟩, ?_, ⟨?_, ?_⟩, ?_⟩
  · rw [streamTypeMP4_args_shape]
    by_cases hfe : f = "" <;> simp_all [List.mem_append]
  · rw [streamTypeMP4_args_shape]
    exact ⟨CodecInit codec ++ ["-movflags", "frag_keyframe+empty_moov"] ++
      (if f = "" then [] else ["-vf", f]), ["-f", "mp4"], by simp⟩
  · rw [streamTypeMP4_args_shape]
    by_cases hfe : f = "" <;> simp_all [List.mem_append]
  · rw [streamTypeMP4_args_shape]
    by_cases hfe : f = "" <;> simp_all [List.mem_append]
  · rw [streamTypeWEBM_args_shape]
    by_cases hfe : f = "" <;> simp_all [List.mem_append]
  · rw [streamTypeWEBM_args_shape]
    exact ⟨CodecInit codec ++ (if f = "" then [] else ["-vf", f]),
      ["-f", "webm"], by simp⟩
  · rw [streamTypeWEBM_args_shape]
    by_cases hfe : f = "" <;> simp_all [List.mem_append]
  · rw [streamTypeWEBM_args_shape]
    by_cases hfe : f = "" <;> simp_all [List.mem_append]
  · rw [streamTypeMKV_args_shape]
    simp_all [List.mem_append]
  · rw [streamTypeMKV_args_shape]
    exact ⟨CodecInit codec, ["-f", "matroska"], by simp⟩
  · rw [streamTypeMKV_args_shape]
    simp_all [List.mem_append]
  · exact an_mem_makeStreamArgs_iff o sm hfmt hin hout hpath hss h4 h9

/-- Witness for the audio-handling theorem at a concrete codec, filter,
request and configuration. -/
theorem audio_handling_policy_witness :
    (VideoCodecLibX264 ∈ catalogCodecs ∧
      ("scale=1280:-2" : VideoFilter) ∉ flagTokens ∧
      (sampleOptionsMP4.StreamType = StreamTypeMP4 ∨
        sampleOptionsMP4.StreamType = StreamTypeWEBM ∨
        sampleOptionsMP4.StreamType = StreamTypeMKV) ∧
      "-an" ∉ sampleManager.liveTranscodeInputArgs ∧
      "-an" ∉ sampleManager.liveTranscodeOutputArgs ∧
      sampleOptionsMP4.VideoFile.Path ≠ "-an" ∧
      toString sampleOptionsMP4.StartTime ≠ "-an" ∧
      (∀ c, sampleManager.hwCodecMP4 = some c → c ∈ catalogCodecs) ∧
      (∀ c, sampleManager.hwCodecWEBM = some c → c ∈ catalogCodecs)) ∧
    (("-an" ∈ StreamTypeMP4.Args VideoCodecLibX264 "scale=1280:-2" true ∧
      "-ac" ∉ StreamTypeMP4.Args VideoCodecLibX264 "scale=1280:-2" true ∧
      "-c:a" ∉ StreamTypeMP4.Args VideoCodecLibX264 "scale=1280:-2" true ∧
      "-b:a" ∉ StreamTypeMP4.Args VideoCodecLibX264 "scale=1280:-2" true) ∧
    (List.IsInfix ["-ac", "2"]
        (StreamTypeMP4.Args VideoCodecLibX264 "scale=1280:-2" false) ∧
      "-an" ∉ StreamTypeMP4.Args VideoCodecLibX264 "scale=1280:-2" false ∧
      "-c:a" ∉ StreamTypeMP4.Args VideoCodecLibX264 "scale=1280:-2" false) ∧
    ("-an" ∈ StreamTypeWEBM.Args VideoCodecLibX264 "scale=1280:-2" true ∧
      "-ac" ∉ StreamTypeWEBM.Args VideoCodecLibX264 "scale=1280:-2" true ∧
      "-c:a" ∉ StreamTypeWEBM.Args VideoCodecLibX264 "scale=1280:-2" true ∧
      "-b:a" ∉ StreamTypeWEBM.Args VideoCodecLibX264 "scale=1280:-2" true) ∧
    (List.IsInfix ["-ac", "2"]
        (StreamTypeWEBM.Args VideoCodecLibX264 "scale=1280:-2" false) ∧
      "-an" ∉ StreamTypeWEBM.Args VideoCodecLibX264 "scale=1280:-2" false ∧
      "-c:a" ∉ StreamTypeWEBM.Args VideoCodecLibX264 "scale=1280:-2" false) ∧
    ("-an" ∈ StreamTypeMKV.Args VideoCodecLibX264 "scale=1280:-2" true ∧
      "-ac" ∉ StreamTypeMKV.Args VideoCodecLibX264 "scale=1280:-2" true ∧
      "-c:a" ∉ StreamTypeMKV.Args VideoCodecLibX264 "scale=1280:-2" true ∧
      "-b:a" ∉ StreamTypeMKV.Args VideoCodecLibX264 "scale=1280:-2" true) ∧
    (List.IsInfix ["-c:a", "libopus", "-b:a", "96k", "-vbr", "on", "-ac", "2"]
        (StreamTypeMKV.Args VideoCodecLibX264 "scale=1280:-2" false) ∧
      "-an" ∉ StreamTypeMKV.Args VideoCodecLibX264 "scale=1280:-2" false) ∧
    ("-an" ∈ makeStreamArgs sampleOptionsMP4 sampleManager ↔
      ProbeAudioCodec sampleOptionsMP4.VideoFile.AudioCodec =
        MissingUnsupported)) :=
  ⟨⟨by decide, by decide, Or.inl rfl, by decide, by decide, by decide,
    by decide, by simp [sampleManager], by simp [sampleManager]⟩,
    audio_handling_policy VideoCodecLibX264 "scale=1280:-2"
      sampleOptionsMP4 sampleManager (by decide) (by decide) (Or.inl rfl)
      (by decide) (by decide) (by decide) (by decide)
      (by simp [sampleManager]) (by simp [sampleManager])⟩

/-- C10: when a non-empty per-request resolution override is present, the
full argument list is independent of the configured maximum streaming
resolution — replacing the configured maximum by any value, in particular
by the override's own maximum, leaves the generated arguments unchanged,
so the cap is derived solely from the override and is not clamped to the
configured maximum. -/
theorem makeStreamArgs_resolution_override (o : TranscodeOptions)
    (sm : StreamManager) (n : Nat) (h : o.Resolution ≠ "") :
    makeStreamArgs o
        ⟨sm.hwCodecMP4, sm.hwCodecWEBM, sm.transcodeHardwareAcceleration,
          n, sm.liveTranscodeInputArgs, sm.liveTranscodeOutputArgs⟩ =
      makeStreamArgs o sm ∧
    makeStreamArgs o
        ⟨sm.hwCodecMP4, sm.hwCodecWEBM, sm.transcodeHardwareAcceleration,
          GetMaxResolution o.Resolution, sm.liveTranscodeInputArgs,
          sm.liveTranscodeOutputArgs⟩ =
      makeStreamArgs o sm := by
  obtain ⟨mp4, webm, accel, size, ein, eout⟩ := sm
  constructor <;> simp [makeStreamArgs, FileGetCodec, h]

/-- Witness for the resolution-override theorem at a concrete request
whose override is the low-resolution label while the configuration caps at
1080, for a replacement cap of 4096. -/
theorem makeStreamArgs_resolution_override_witness :
    sampleOptionsOverride.Resolution ≠ "" ∧
    (makeStreamArgs sampleOptionsOverride
        ⟨sampleManager.hwCodecMP4, sampleManager.hwCodecWEBM,
          sampleManager.transcodeHardwareAcceleration, 4096,
          sampleManager.liveTranscodeInputArgs,
          sampleManager.liveTranscodeOutputArgs⟩ =
      makeStreamArgs sampleOptionsOverride sampleManager ∧
    makeStreamArgs sampleOptionsOverride
        ⟨sampleManager.hwCodecMP4, sampleManager.hwCodecWEBM,
          sampleManager.transcodeHardwareAcceleration,
          GetMaxResolution sampleOptionsOverride.Resolution,
          sampleManager.liveTranscodeInputArgs,
          sampleManager.liveTranscodeOutputArgs⟩ =
      makeStreamArgs sampleOptionsOverride sampleManager) :=
  ⟨by decide,
    makeStreamArgs_resolution_override sampleOptionsOverride sampleManager
      4096 (by decide)⟩

end Stash
